import Mathlib

/-!
Verification of the APEX_CORE compatibility headers.

The repository consists of two C compatibility headers:

* `src/bypass_fix.h` (the stub-suppression header) replaces absent libc
  symbols with function-like macros: six always-fail stubs expanding to
  `(errno = ENOSYS, -1)`, three password-database no-op/empty stubs, and a
  `sem_clockwait` macro expanding to `sem_timedwait(sem, timeout)`.
* `src/sovereign_shim.h` (the functional-fallback header) defines
  `sem_clockwait` as an inline function delegating to `sem_timedwait`, and
  `close_range` as an inline function invoking
  `syscall(SYS_close_range, first, last, flags)`, with `SYS_close_range`
  given the fallback value 436 when the platform headers do not define it.

The shallow embedding models a call-site world as the thread-local error
indicator `errno` together with all other program state, abstracted as a
value of an arbitrary type. External primitives the headers delegate to
(`sem_timedwait`, `syscall`) are modelled as oracle parameters. Include
guards and the symbols each header defines are modelled by a small
evaluator over the exact guard shapes occurring in the two files.
-/

set_option linter.unusedVariables false

namespace ApexCore

/-- Value of the POSIX error code ENOSYS ("function not supported"),
as defined by the Linux ABI the headers target. -/
def ENOSYS : Int := 38

/-- Observable state at a call site: the thread-local error indicator
`errno` together with all remaining program state, abstracted as a value
of an arbitrary type `ρ`. -/
structure World (ρ : Type) where
  errno : Int
  rest : ρ

/-- Embedding of line 8 of bypass_fix.h:
`#define close_range(a, b, c) (errno = ENOSYS, -1)`.
The C comma expression assigns `errno` and evaluates to `-1`; the macro
parameters do not occur in the replacement list. -/
def close_range_stub {ρ : Type} (a b c : Int) (w : World ρ) : Int × World ρ :=
  (-1, { w with errno := ENOSYS })

/-- Embedding of line 9 of bypass_fix.h:
`#define copy_file_range(a,b,c,d,e,f) (errno = ENOSYS, -1)`. -/
def copy_file_range_stub {ρ : Type} (a b c d e f : Int) (w : World ρ) :
    Int × World ρ :=
  (-1, { w with errno := ENOSYS })

/-- Embedding of line 10 of bypass_fix.h:
`#define preadv2(a,b,c,d,e) (errno = ENOSYS, -1)`. -/
def preadv2_stub {ρ : Type} (a b c d e : Int) (w : World ρ) : Int × World ρ :=
  (-1, { w with errno := ENOSYS })

/-- Embedding of line 11 of bypass_fix.h:
`#define pwritev2(a,b,c,d,e) (errno = ENOSYS, -1)`. -/
def pwritev2_stub {ρ : Type} (a b c d e : Int) (w : World ρ) : Int × World ρ :=
  (-1, { w with errno := ENOSYS })

/-- Embedding of line 19 of bypass_fix.h:
`#define getloadavg(a,b) (errno = ENOSYS, -1)`. -/
def getloadavg_stub {ρ : Type} (a b : Int) (w : World ρ) : Int × World ρ :=
  (-1, { w with errno := ENOSYS })

/-- Embedding of line 20 of bypass_fix.h:
`#define fexecve(a, b, c) (errno = ENOSYS, -1)`. -/
def fexecve_stub {ρ : Type} (a b c : Int) (w : World ρ) : Int × World ρ :=
  (-1, { w with errno := ENOSYS })

/-- Embedding of line 14 of bypass_fix.h:
`#define setpwent() ((void)0)` — a pure no-op with no value. -/
def setpwent_stub {ρ : Type} (w : World ρ) : Unit × World ρ :=
  ((), w)

/-- Embedding of line 15 of bypass_fix.h:
`#define endpwent() ((void)0)` — a pure no-op with no value. -/
def endpwent_stub {ρ : Type} (w : World ρ) : Unit × World ρ :=
  ((), w)

/-- Embedding of line 16 of bypass_fix.h:
`#define getpwent() (NULL)` — always the null pointer, no state change.
The pointee type is abstract (`π`); `none` models NULL. -/
def getpwent_stub {ρ π : Type} (w : World ρ) : Option π × World ρ :=
  (none, w)

/-- Type of the external `sem_timedwait` primitive, modelled as an oracle:
given a semaphore (`σ`) and an absolute timeout (`τ`) it transforms the
world and returns an int result. -/
def SemTimedwait (σ τ ρ : Type) : Type :=
  σ → τ → World ρ → Int × World ρ

/-- Embedding of line 21 of bypass_fix.h:
`#define sem_clockwait(sem, clock, timeout) sem_timedwait(sem, timeout)`.
The `clock` parameter does not occur in the replacement list. -/
def sem_clockwait_bypass {σ τ ρ : Type} (stw : SemTimedwait σ τ ρ)
    (sem : σ) (clock : Int) (timeout : τ) (w : World ρ) : Int × World ρ :=
  stw sem timeout w

/-- Embedding of lines 9-11 of sovereign_shim.h:
`static inline int sem_clockwait(sem_t *sem, clockid_t clockid,
const struct timespec *abs_timeout) { return sem_timedwait(sem, abs_timeout); }`. -/
def sem_clockwait_shim {σ τ ρ : Type} (stw : SemTimedwait σ τ ρ)
    (sem : σ) (clockid : Int) (abs_timeout : τ) (w : World ρ) : Int × World ρ :=
  stw sem abs_timeout w

/-- Type of the external raw `syscall` primitive, modelled as an oracle:
given a numeric system-call identifier and three arguments, it transforms
the world (possibly setting `errno`) and returns a long result. -/
def Syscall (ρ : Type) : Type :=
  Nat → Nat → Nat → Nat → World ρ → Int × World ρ

/-- Conversion of a C `long` result to the C `int` return type of
`close_range` (two's-complement wrap modulo 2^32). -/
def toInt32 (r : Int) : Int :=
  (r + 2 ^ 31) % 2 ^ 32 - 2 ^ 31

/-- Embedding of lines 13-15 of sovereign_shim.h:
`#ifndef SYS_close_range` / `#define SYS_close_range 436` / `#endif`.
`platform` is the value the platform headers predefine, when they do. -/
def SYS_close_range (platform : Option Nat) : Nat :=
  match platform with
  | some v => v
  | none => 436

/-- Embedding of lines 16-18 of sovereign_shim.h:
`static inline int close_range(unsigned int first, unsigned int last,
unsigned int flags) { return syscall(SYS_close_range, first, last, flags); }`. -/
def close_range_shim {ρ : Type} (platform : Option Nat) (sys : Syscall ρ)
    (first last flags : Nat) (w : World ρ) : Int × World ρ :=
  let r := sys (SYS_close_range platform) first last flags w
  (toInt32 r.1, r.2)

/-! Call-site semantics.

A C argument expression may have side effects; it is modelled as a world
transformer returning the argument value. A function-like macro call
substitutes argument expressions textually into the replacement list, so
an expression whose parameter does not occur there is never evaluated. An
inline function call evaluates each argument expression exactly once
(left to right here; C leaves the order unspecified, which does not
affect the evaluation counts) and then runs the body on the values. -/

/-- Model of a C argument expression: transforms the world and yields a value. -/
def ArgExpr (ρ α : Type) : Type :=
  World ρ → α × World ρ

/-- Call site `close_range(e1, e2, e3)` under bypass_fix.h: the expansion
is the replacement list `(errno = ENOSYS, -1)`, in which the parameters
`a`, `b`, `c` do not occur, so the argument expressions never appear in
the expanded token stream and are never evaluated. -/
def close_range_stub_call {ρ : Type} (e1 e2 e3 : ArgExpr ρ Nat)
    (w : World ρ) : Int × World ρ :=
  (-1, { w with errno := ENOSYS })

/-- Call site `sem_clockwait(esem, eclock, etimeout)` under bypass_fix.h:
the expansion is `sem_timedwait(esem, etimeout)`, so the semaphore and
timeout expressions are evaluated (once each, as arguments of the
`sem_timedwait` call) while the clock expression does not occur in the
expansion and is never evaluated. -/
def sem_clockwait_bypass_call {σ τ ρ : Type} (stw : SemTimedwait σ τ ρ)
    (esem : ArgExpr ρ σ) (eclock : ArgExpr ρ Int) (etimeout : ArgExpr ρ τ)
    (w : World ρ) : Int × World ρ :=
  let s := esem w
  let t := etimeout s.2
  stw s.1 t.1 t.2

/-- Call site `sem_clockwait(esem, eclock, etimeout)` under
sovereign_shim.h: an ordinary call of the inline function, so each
argument expression is evaluated exactly once before the body runs. -/
def sem_clockwait_shim_call {σ τ ρ : Type} (stw : SemTimedwait σ τ ρ)
    (esem : ArgExpr ρ σ) (eclock : ArgExpr ρ Int) (etimeout : ArgExpr ρ τ)
    (w : World ρ) : Int × World ρ :=
  let s := esem w
  let c := eclock s.2
  let t := etimeout c.2
  sem_clockwait_shim stw s.1 c.1 t.1 t.2

/-- Call site `close_range(e1, e2, e3)` under sovereign_shim.h: an
ordinary call of the inline function, so each argument expression is
evaluated exactly once before the body runs. -/
def close_range_shim_call {ρ : Type} (platform : Option Nat) (sys : Syscall ρ)
    (e1 e2 e3 : ArgExpr ρ Nat) (w : World ρ) : Int × World ρ :=
  let a := e1 w
  let b := e2 a.2
  let c := e3 b.2
  close_range_shim platform sys a.1 b.1 c.1 c.2

/-- Evaluation counters for three observable side-effecting argument
expressions, standing for calls `f()`, `g()`, `h()` at a call site. -/
structure Counters where
  f : Nat
  g : Nat
  h : Nat

/-- Argument expression `f()`: bumps the first counter, yields 3. -/
def tickF : ArgExpr Counters Nat :=
  fun w => (3, { w with rest := { w.rest with f := w.rest.f + 1 } })

/-- Argument expression `g()`: bumps the second counter, yields 10. -/
def tickG : ArgExpr Counters Nat :=
  fun w => (10, { w with rest := { w.rest with g := w.rest.g + 1 } })

/-- Argument expression `h()`: bumps the third counter, yields 0. -/
def tickH : ArgExpr Counters Nat :=
  fun w => (0, { w with rest := { w.rest with h := w.rest.h + 1 } })

/-- Clock argument expression `tick()`: bumps the second counter, yields 1. -/
def tickClock : ArgExpr Counters Int :=
  fun w => (1, { w with rest := { w.rest with g := w.rest.g + 1 } })

/-- A `sem_timedwait` oracle that succeeds and leaves the world unchanged. -/
def pureSemWait : SemTimedwait Nat Nat Counters :=
  fun _ _ w => (0, w)

/-- A `syscall` oracle that succeeds and leaves the world unchanged. -/
def pureSyscall : Syscall Counters :=
  fun _ _ _ _ w => (0, w)

/-! Preprocessor model.

Each header is a sequence of guarded sections, reflecting the exact guard
shapes in the two files: a `#ifndef G ... #define G ... body ... #endif`
region whose body is a list of symbol definitions and, in
sovereign_shim.h, one self-guarded definition
`#ifndef SYS_close_range / #define SYS_close_range 436 / #endif`.
The evaluator threads the set of defined guard macros through a
translation unit, a list of header inclusions. -/

/-- Symbols the two headers can define. -/
inductive Sym where
  | close_range
  | copy_file_range
  | preadv2
  | pwritev2
  | setpwent
  | endpwent
  | getpwent
  | getloadavg
  | fexecve
  | sem_clockwait
  | sys_close_range
  deriving DecidableEq

/-- One entry inside a guarded section: an unconditional definition, or a
definition guarded by (and defining) its own macro name. -/
inductive Entry where
  | plain (s : Sym)
  | guardedDef (g : String) (s : Sym)

/-- A top-level guarded region of a header: `#ifndef guard`, `#define
guard`, the body, `#endif`. -/
structure HSection where
  guard : String
  body : List Entry

/-- Process one entry given the defined-macro environment, yielding the
symbols defined and the new environment. -/
def runEntry : Entry → List String → List Sym × List String
  | Entry.plain s, env => ([s], env)
  | Entry.guardedDef g s, env =>
    if g ∈ env then ([], env) else ([s], g :: env)

/-- Process the body of a guarded section in order. -/
def runBody : List Entry → List String → List Sym × List String
  | [], env => ([], env)
  | e :: rest, env =>
    let r1 := runEntry e env
    let r2 := runBody rest r1.2
    (r1.1 ++ r2.1, r2.2)

/-- Process one guarded section: skip it entirely when its guard macro is
already defined, otherwise define the guard and process the body. -/
def runSection (sec : HSection) (env : List String) :
    List Sym × List String :=
  if sec.guard ∈ env then ([], env) else runBody sec.body (sec.guard :: env)

/-- Process the sections of a header in order. -/
def runSections : List HSection → List String → List Sym × List String
  | [], env => ([], env)
  | sec :: rest, env =>
    let r1 := runSection sec env
    let r2 := runSections rest r1.2
    (r1.1 ++ r2.1, r2.2)

/-- The two headers of the repository. -/
inductive Header where
  | bypass_fix
  | sovereign_shim
  deriving DecidableEq

/-- Guarded-section structure of each header, transcribed from the files:
bypass_fix.h is a `REECH_BYPASS_H` region defining the ten stub symbols
followed by an `FFI_BYPASS` region containing only an `#include`;
sovereign_shim.h is a single `SOVEREIGN_SHIM_H` region defining
`sem_clockwait`, then the self-guarded `SYS_close_range`, then
`close_range`. -/
def headerSections : Header → List HSection
  | Header.bypass_fix =>
    [⟨"REECH_BYPASS_H",
      [Entry.plain Sym.close_range, Entry.plain Sym.copy_file_range,
       Entry.plain Sym.preadv2, Entry.plain Sym.pwritev2,
       Entry.plain Sym.setpwent, Entry.plain Sym.endpwent,
       Entry.plain Sym.getpwent, Entry.plain Sym.getloadavg,
       Entry.plain Sym.fexecve, Entry.plain Sym.sem_clockwait]⟩,
     ⟨"FFI_BYPASS", []⟩]
  | Header.sovereign_shim =>
    [⟨"SOVEREIGN_SHIM_H",
      [Entry.plain Sym.sem_clockwait,
       Entry.guardedDef "SYS_close_range" Sym.sys_close_range,
       Entry.plain Sym.close_range]⟩]

/-- Preprocess a translation unit: a list of header inclusions, threaded
through the defined-macro environment. -/
def runTU : List Header → List String → List Sym × List String
  | [], env => ([], env)
  | h :: rest, env =>
    let r1 := runSections (headerSections h) env
    let r2 := runTU rest r1.2
    (r1.1 ++ r2.1, r2.2)

/-- Symbols a translation unit defines, starting from no defined macros. -/
def preprocessTU (tu : List Header) : List Sym :=
  (runTU tu []).1

/-- Number of times a translation unit defines a symbol. -/
def defCount (tu : List Header) (s : Sym) : Nat :=
  (preprocessTU tu).count s

/-! Theorems for the claims about the runtime behaviour of the shims. -/

/-- C1: in bypass_fix.h, each always-fail substitution (`close_range`,
`copy_file_range`, `preadv2`, `pwritev2`, `getloadavg`, `fexecve`)
returns -1 and sets the thread-local error indicator to ENOSYS for all
arguments; the result does not depend on the arguments, which are never
inspected. -/
theorem always_fail_stubs_return_enosys :
    ∀ (ρ : Type) (w : World ρ) (a b c d e f : Int),
      close_range_stub a b c w = (-1, { w with errno := ENOSYS }) ∧
      copy_file_range_stub a b c d e f w = (-1, { w with errno := ENOSYS }) ∧
      preadv2_stub a b c d e w = (-1, { w with errno := ENOSYS }) ∧
      pwritev2_stub a b c d e w = (-1, { w with errno := ENOSYS }) ∧
      getloadavg_stub a b w = (-1, { w with errno := ENOSYS }) ∧
      fexecve_stub a b c w = (-1, { w with errno := ENOSYS }) :=
  fun _ _ _ _ _ _ _ _ => ⟨rfl, rfl, rfl, rfl, rfl, rfl⟩

/-- C2: in both headers, `sem_clockwait sem clock t` coincides with the
direct call `sem_timedwait sem t` — the same result value and the same
final world (hence the same error indicator) — for every clock argument
and every `sem_timedwait` oracle. -/
theorem sem_clockwait_delegates_to_sem_timedwait :
    ∀ (σ τ ρ : Type) (stw : SemTimedwait σ τ ρ) (sem : σ) (clock : Int)
      (t : τ) (w : World ρ),
      sem_clockwait_bypass stw sem clock t w = stw sem t w ∧
      sem_clockwait_shim stw sem clock t w = stw sem t w :=
  fun _ _ _ _ _ _ _ _ => ⟨rfl, rfl⟩

/-- C7: the bypass_fix.h macro version of `sem_clockwait` and the
sovereign_shim.h inline-function version are behaviorally identical: for
every semaphore, clock, timeout, oracle and world they produce the same
result value and the same final world. -/
theorem sem_clockwait_versions_identical :
    ∀ (σ τ ρ : Type) (stw : SemTimedwait σ τ ρ) (sem : σ) (clock : Int)
      (t : τ) (w : World ρ),
      sem_clockwait_bypass stw sem clock t w =
        sem_clockwait_shim stw sem clock t w :=
  fun _ _ _ _ _ _ _ _ => rfl

/-- C4: the password-database substitutions are pure and stateless:
`setpwent` and `endpwent` return unit and leave the world (including
`errno`) unchanged, `getpwent` always returns NULL (`none`) and leaves
the world unchanged, and iterating `getpwent` any number of times never
changes the world. -/
theorem password_db_stubs_pure :
    ∀ (ρ π : Type) (w : World ρ) (n : Nat),
      setpwent_stub w = ((), w) ∧
      endpwent_stub w = ((), w) ∧
      @getpwent_stub ρ π w = (none, w) ∧
      (fun v => (@getpwent_stub ρ π v).2)^[n] w = w :=
  fun _ _ w n =>
    ⟨rfl, rfl, rfl, Function.iterate_fixed rfl n⟩

/-- C6: each always-fail substitution is deterministic and atomic on
failure: it never succeeds (result -1, not 0), leaves all program state
other than `errno` unchanged, produces the identical result for any two
argument tuples, and a repeated call from the post-state reproduces the
same result and state. Stated via `AlwaysFailFrame` below, instantiated
to all six stubs at two arbitrary argument tuples each. -/
def AlwaysFailFrame {ρ : Type} (call1 call2 : World ρ → Int × World ρ) : Prop :=
  ∀ w : World ρ,
    (call1 w).1 = -1 ∧
    ((call1 w).2).rest = w.rest ∧
    ((call1 w).2).errno = ENOSYS ∧
    call1 w = call2 w ∧
    call1 ((call2 w).2) = call1 w

theorem always_fail_stubs_frame :
    ∀ (ρ : Type) (a b c d e f a2 b2 c2 d2 e2 f2 : Int),
      AlwaysFailFrame (ρ := ρ) (close_range_stub a b c) (close_range_stub a2 b2 c2) ∧
      AlwaysFailFrame (ρ := ρ) (copy_file_range_stub a b c d e f)
        (copy_file_range_stub a2 b2 c2 d2 e2 f2) ∧
      AlwaysFailFrame (ρ := ρ) (preadv2_stub a b c d e) (preadv2_stub a2 b2 c2 d2 e2) ∧
      AlwaysFailFrame (ρ := ρ) (pwritev2_stub a b c d e) (pwritev2_stub a2 b2 c2 d2 e2) ∧
      AlwaysFailFrame (ρ := ρ) (getloadavg_stub a b) (getloadavg_stub a2 b2) ∧
      AlwaysFailFrame (ρ := ρ) (fexecve_stub a b c) (fexecve_stub a2 b2 c2) :=
  fun _ _ _ _ _ _ _ _ _ _ _ _ _ =>
    ⟨fun _ => ⟨rfl, rfl, rfl, rfl, rfl⟩, fun _ => ⟨rfl, rfl, rfl, rfl, rfl⟩,
     fun _ => ⟨rfl, rfl, rfl, rfl, rfl⟩, fun _ => ⟨rfl, rfl, rfl, rfl, rfl⟩,
     fun _ => ⟨rfl, rfl, rfl, rfl, rfl⟩, fun _ => ⟨rfl, rfl, rfl, rfl, rfl⟩⟩

/-- C3: in sovereign_shim.h, `close_range first last flags` returns
exactly what the raw kernel call returns and passes its world (hence its
`errno` effect) through unchanged, for every input including
`first > last`, whenever the kernel result fits in a C int (as 0 and -1
do); the embedding is total, so every input yields a defined value. -/
theorem close_range_shim_passes_through_syscall :
    ∀ (ρ : Type) (platform : Option Nat) (sys : Syscall ρ)
      (first last flags : Nat) (w : World ρ),
      -(2 ^ 31) ≤ (sys (SYS_close_range platform) first last flags w).1 →
      (sys (SYS_close_range platform) first last flags w).1 < 2 ^ 31 →
      close_range_shim platform sys first last flags w =
        sys (SYS_close_range platform) first last flags w := by
  intro ρ platform sys first last flags w h1 h2
  have h3 : toInt32 (sys (SYS_close_range platform) first last flags w).1 =
      (sys (SYS_close_range platform) first last flags w).1 := by
    unfold toInt32
    omega
  show (toInt32 (sys (SYS_close_range platform) first last flags w).1,
      (sys (SYS_close_range platform) first last flags w).2) =
    sys (SYS_close_range platform) first last flags w
  rw [h3]

/-- A concrete syscall oracle for the witness: it succeeds with result 0
in a world whose extra state is a single natural number, closing the two
open descriptors of the scenario in spec.md section 8. -/
def okSyscall : Syscall Nat :=
  fun _ _ _ _ w => (0, w)

theorem close_range_shim_passes_through_syscall_witness :
    close_range_shim none okSyscall 3 10 0 ⟨0, 0⟩ =
      okSyscall (SYS_close_range none) 3 10 0 ⟨0, 0⟩ :=
  close_range_shim_passes_through_syscall Nat none okSyscall 3 10 0 ⟨0, 0⟩
    (by decide) (by decide)

/-- C5: `SYS_close_range` is the fallback literal 436 exactly when the
platform headers do not predefine it, and the platform's value unchanged
when they do; `close_range` invokes the kernel under precisely that
identifier in both cases. -/
theorem sys_close_range_fallback :
    SYS_close_range none = 436 ∧
    (∀ v : Nat, SYS_close_range (some v) = v) ∧
    (∀ (ρ : Type) (sys : Syscall ρ) (v first last flags : Nat) (w : World ρ),
      close_range_shim (some v) sys first last flags w =
        (toInt32 (sys v first last flags w).1, (sys v first last flags w).2)) ∧
    (∀ (ρ : Type) (sys : Syscall ρ) (first last flags : Nat) (w : World ρ),
      close_range_shim none sys first last flags w =
        (toInt32 (sys 436 first last flags w).1, (sys 436 first last flags w).2)) :=
  ⟨rfl, fun _ => rfl, fun _ _ _ _ _ _ _ => rfl, fun _ _ _ _ _ _ => rfl⟩

/-- C9: the bypass_fix.h macros never evaluate argument expressions that
do not occur in their replacement lists — a `close_range(f(), g(), h())`
call site is independent of all three argument expressions and only sets
`errno`, and a `sem_clockwait(s, tick(), t)` call site is independent of
the clock expression — whereas the sovereign_shim.h inline functions
evaluate every argument expression exactly once, as the evaluation
counters show. -/
theorem macro_arguments_never_evaluated :
    (∀ (ρ : Type) (e1 e2 e3 f1 f2 f3 : ArgExpr ρ Nat) (w : World ρ),
      close_range_stub_call e1 e2 e3 w = close_range_stub_call f1 f2 f3 w ∧
      close_range_stub_call e1 e2 e3 w = (-1, { w with errno := ENOSYS })) ∧
    (∀ (σ τ ρ : Type) (stw : SemTimedwait σ τ ρ) (es : ArgExpr ρ σ)
      (et : ArgExpr ρ τ) (ec fc : ArgExpr ρ Int) (w : World ρ),
      sem_clockwait_bypass_call stw es ec et w =
        sem_clockwait_bypass_call stw es fc et w) ∧
    (∀ w : World Counters,
      ((sem_clockwait_shim_call pureSemWait tickF tickClock tickH w).2).rest =
        ⟨w.rest.f + 1, w.rest.g + 1, w.rest.h + 1⟩) ∧
    (∀ w : World Counters,
      ((close_range_shim_call none pureSyscall tickF tickG tickH w).2).rest =
        ⟨w.rest.f + 1, w.rest.g + 1, w.rest.h + 1⟩) :=
  ⟨fun _ _ _ _ _ _ _ _ => ⟨rfl, rfl⟩,
   fun _ _ _ _ _ _ _ _ _ => rfl,
   fun _ => rfl,
   fun _ => rfl⟩

/-! Lemmas characterizing one inclusion of each header. -/

/-- Symbols bypass_fix.h defines on a first, unsuppressed inclusion. -/
def bypassSyms : List Sym :=
  [Sym.close_range, Sym.copy_file_range, Sym.preadv2, Sym.pwritev2,
   Sym.setpwent, Sym.endpwent, Sym.getpwent, Sym.getloadavg,
   Sym.fexecve, Sym.sem_clockwait]

theorem bypass_emit (env : List String) :
    (runSections (headerSections Header.bypass_fix) env).1 =
      if "REECH_BYPASS_H" ∈ env then [] else bypassSyms := by
  by_cases h1 : "REECH_BYPASS_H" ∈ env <;>
    by_cases h2 : "FFI_BYPASS" ∈ env <;>
      simp [runSections, runSection, runBody, runEntry, headerSections,
        bypassSyms, h1, h2]

theorem shim_emit (env : List String) :
    (runSections (headerSections Header.sovereign_shim) env).1 =
      if "SOVEREIGN_SHIM_H" ∈ env then []
      else if "SYS_close_range" ∈ env then [Sym.sem_clockwait, Sym.close_range]
      else [Sym.sem_clockwait, Sym.sys_close_range, Sym.close_range] := by
  by_cases h1 : "SOVEREIGN_SHIM_H" ∈ env <;>
    by_cases h2 : "SYS_close_range" ∈ env <;>
      simp [runSections, runSection, runBody, runEntry, headerSections, h1, h2]

theorem bypass_env_reech (env : List String) :
    "REECH_BYPASS_H" ∈ (runSections (headerSections Header.bypass_fix) env).2 := by
  by_cases h1 : "REECH_BYPASS_H" ∈ env <;>
    by_cases h2 : "FFI_BYPASS" ∈ env <;>
      simp [runSections, runSection, runBody, runEntry, headerSections, h1, h2]

theorem bypass_env_ffi (env : List String) :
    "FFI_BYPASS" ∈ (runSections (headerSections Header.bypass_fix) env).2 := by
  by_cases h1 : "REECH_BYPASS_H" ∈ env <;>
    by_cases h2 : "FFI_BYPASS" ∈ env <;>
      simp [runSections, runSection, runBody, runEntry, headerSections, h1, h2]

theorem bypass_env_sov (env : List String) :
    "SOVEREIGN_SHIM_H" ∈ (runSections (headerSections Header.bypass_fix) env).2 ↔
      "SOVEREIGN_SHIM_H" ∈ env := by
  by_cases h1 : "REECH_BYPASS_H" ∈ env <;>
    by_cases h2 : "FFI_BYPASS" ∈ env <;>
      simp [runSections, runSection, runBody, runEntry, headerSections, h1, h2]

theorem shim_env_sov (env : List String) :
    "SOVEREIGN_SHIM_H" ∈ (runSections (headerSections Header.sovereign_shim) env).2 := by
  by_cases h1 : "SOVEREIGN_SHIM_H" ∈ env <;>
    by_cases h2 : "SYS_close_range" ∈ env <;>
      simp [runSections, runSection, runBody, runEntry, headerSections, h1, h2]

theorem shim_env_reech (env : List String) :
    "REECH_BYPASS_H" ∈ (runSections (headerSections Header.sovereign_shim) env).2 ↔
      "REECH_BYPASS_H" ∈ env := by
  by_cases h1 : "SOVEREIGN_SHIM_H" ∈ env <;>
    by_cases h2 : "SYS_close_range" ∈ env <;>
      simp [runSections, runSection, runBody, runEntry, headerSections, h1, h2]

/-- Count of the two conflicting symbols over a whole translation unit:
each header contributes one definition at its first unsuppressed
inclusion and none afterwards. -/
theorem count_runTU (s : Sym)
    (hs : s = Sym.sem_clockwait ∨ s = Sym.close_range) :
    ∀ (tu : List Header) (env : List String),
      ((runTU tu env).1).count s =
        (if Header.bypass_fix ∈ tu ∧ "REECH_BYPASS_H" ∉ env then 1 else 0) +
        (if Header.sovereign_shim ∈ tu ∧ "SOVEREIGN_SHIM_H" ∉ env then 1 else 0) := by
  intro tu
  induction tu with
  | nil =>
    intro env
    simp [runTU]
  | cons hd rest ih =>
    intro env
    have hc1 : bypassSyms.count s = 1 := by
      rcases hs with h | h <;> subst h <;> decide
    have hc2 : ([Sym.sem_clockwait, Sym.close_range]).count s = 1 := by
      rcases hs with h | h <;> subst h <;> decide
    have hc3 : ([Sym.sem_clockwait, Sym.sys_close_range, Sym.close_range]).count s = 1 := by
      rcases hs with h | h <;> subst h <;> decide
    cases hd with
    | bypass_fix =>
      have hsplit : ((runTU (Header.bypass_fix :: rest) env).1).count s =
          ((runSections (headerSections Header.bypass_fix) env).1).count s +
          ((runTU rest ((runSections (headerSections Header.bypass_fix) env).2)).1).count s := by
        show (((runSections (headerSections Header.bypass_fix) env).1 ++
          (runTU rest ((runSections (headerSections Header.bypass_fix) env).2)).1)).count s = _
        simp [List.count_append]
      rw [hsplit, bypass_emit, ih]
      have hA1 := bypass_env_reech env
      have hA2 := bypass_env_sov env
      by_cases h1 : "REECH_BYPASS_H" ∈ env <;>
        by_cases h2 : "SOVEREIGN_SHIM_H" ∈ env <;>
          by_cases h3 : Header.sovereign_shim ∈ rest <;>
            simp [h1, h2, h3, hA1, hA2, hc1]
    | sovereign_shim =>
      have hsplit : ((runTU (Header.sovereign_shim :: rest) env).1).count s =
          ((runSections (headerSections Header.sovereign_shim) env).1).count s +
          ((runTU rest ((runSections (headerSections Header.sovereign_shim) env).2)).1).count s := by
        show (((runSections (headerSections Header.sovereign_shim) env).1 ++
          (runTU rest ((runSections (headerSections Header.sovereign_shim) env).2)).1)).count s = _
        simp [List.count_append]
      rw [hsplit, shim_emit, ih]
      have hB1 := shim_env_sov env
      have hB2 := shim_env_reech env
      by_cases h1 : "SOVEREIGN_SHIM_H" ∈ env <;>
        by_cases h2 : "REECH_BYPASS_H" ∈ env <;>
          by_cases h3 : Header.bypass_fix ∈ rest <;>
            by_cases h4 : "SYS_close_range" ∈ env <;>
              simp [h1, h2, h3, h4, hB1, hB2, hc2, hc3]

/-- C8: the two headers both define `sem_clockwait` and `close_range`
(by conflicting strategies: macro stub versus real inline function), and
in a translation unit each of these symbols is defined at most once
precisely when the two headers are not both included. -/
theorem headers_mutual_exclusion :
    ∀ tu : List Header,
      (defCount tu Sym.sem_clockwait ≤ 1 ∧ defCount tu Sym.close_range ≤ 1) ↔
        ¬(Header.bypass_fix ∈ tu ∧ Header.sovereign_shim ∈ tu) := by
  intro tu
  have h1 := count_runTU Sym.sem_clockwait (Or.inl rfl) tu []
  have h2 := count_runTU Sym.close_range (Or.inr rfl) tu []
  unfold defCount preprocessTU
  rw [h1, h2]
  by_cases hb : Header.bypass_fix ∈ tu <;>
    by_cases hsh : Header.sovereign_shim ∈ tu <;>
      simp [hb, hsh]

/-! Idempotence of repeated inclusion. -/

theorem bypass_stable (env : List String)
    (h1 : "REECH_BYPASS_H" ∈ env) (h2 : "FFI_BYPASS" ∈ env) :
    runSections (headerSections Header.bypass_fix) env = ([], env) := by
  simp [runSections, runSection, headerSections, h1, h2]

theorem shim_stable (env : List String) (h : "SOVEREIGN_SHIM_H" ∈ env) :
    runSections (headerSections Header.sovereign_shim) env = ([], env) := by
  simp [runSections, runSection, headerSections, h]

theorem header_stable_after (h : Header) (env : List String) :
    runSections (headerSections h) ((runSections (headerSections h) env).2) =
      ([], (runSections (headerSections h) env).2) := by
  cases h with
  | bypass_fix => exact bypass_stable _ (bypass_env_reech env) (bypass_env_ffi env)
  | sovereign_shim => exact shim_stable _ (shim_env_sov env)

theorem runTU_replicate_stable (h : Header) (env : List String)
    (hst : runSections (headerSections h) env = ([], env)) :
    ∀ n : Nat, runTU (List.replicate n h) env = ([], env) := by
  intro n
  induction n with
  | zero => rfl
  | succ n ih => simp [List.replicate_succ, runTU, hst, ih]

/-- C10: inclusion of each header is idempotent: all its definitions sit
inside include guards, so including it any positive number of times in a
translation unit defines exactly the same symbols as including it once,
and a single inclusion defines each symbol at most once, so repeated
inclusion raises no redefinition conflict. -/
theorem include_guards_idempotent :
    (∀ (h : Header) (n : Nat),
      preprocessTU (List.replicate (n + 1) h) = preprocessTU [h]) ∧
    (preprocessTU [Header.bypass_fix]).Nodup ∧
    (preprocessTU [Header.sovereign_shim]).Nodup := by
  refine ⟨?_, by decide, by decide⟩
  intro h n
  unfold preprocessTU
  have hrep := runTU_replicate_stable h
    ((runSections (headerSections h) []).2) (header_stable_after h []) n
  rw [List.replicate_succ]
  show ((runSections (headerSections h) []).1 ++
      (runTU (List.replicate n h) ((runSections (headerSections h) []).2)).1) =
    ((runSections (headerSections h) []).1 ++
      (runTU ([] : List Header) ((runSections (headerSections h) []).2)).1)
  rw [hrep]
  rfl

end ApexCore
